import Mathlib
/-!
Verification of the outage-data extraction and render-orchestration scripts
(`scripts/parse_fact.js`, `scripts/batch_render.mjs`, `scripts/lib/renderer.mjs`).
The JavaScript data model and operations are embedded shallowly: JS objects
loaded from JSON become structures with `Option` fields, host-provided
functions (JSON.parse, the Function-constructor evaluator, Intl time-zone
data) are passed as explicit parameters or modelled separately, and file
writes are modelled by returning the written value.
-/
namespace Outage
/-- JSON-like JavaScript values as produced by parsing the embedded literals. -/
inductive JsVal where
  | null
  | bool (b : Bool)
  | num (n : Int)
  | str (s : String)
  | arr (elems : List JsVal)
  | obj (fields : List (String × JsVal))
/-- JavaScript truthiness for the modelled values (NaN is not modelled;
numbers are integers here). -/
def JsVal.truthy : JsVal → Bool
  | .null => false
  | .bool b => b
  | .num n => n != 0
  | .str s => s != ""
  | .arr _ => true
  | .obj _ => true
/-- Truthiness of an optional string: `none` models null/undefined, and the
empty string is falsy in JS. -/
def strTruthy : Option String → Bool
  | none => false
  | some s => s != ""
/-- The `lastUpdateStatus` object of a persisted record
(parse_fact.js: template literal lines 118, and the updates at 135-142,
242-249, 325-332).  The JS field `at` is a reserved word in Lean and is
called `atTime` here; `attempt := none` models an absent or non-number
`attempt` field in a previously stored file. -/
structure UpdateStatus where
  status : String
  ok : Bool
  code : Option Int
  message : Option String
  atTime : Option String
  attempt : Option Int
deriving DecidableEq
/-- The `meta` object of a persisted record (schemaVersion, contentHash). -/
structure Meta where
  schemaVersion : Option String
  contentHash : Option String
deriving DecidableEq
/-- A persisted per-region record (parse_fact.js header comment and the
template at lines 113-123).  Every field is optional because records are
re-loaded from arbitrary JSON on disk. -/
structure Record where
  regionId : Option String
  lastUpdated : Option String
  fact : Option JsVal
  preset : Option JsVal
  lastUpdateStatus : Option UpdateStatus
  meta : Option Meta
/-- The JS guard `(base.lastUpdateStatus && typeof base.lastUpdateStatus.attempt
=== 'number') ? base.lastUpdateStatus.attempt : 0` (parse_fact.js line 134 and,
with `existing` in place of `base`, line 324). -/
def attemptOfBase (base : Record) : Int :=
  match base.lastUpdateStatus with
  | some st => match st.attempt with
    | some a => a
    | none => 0
  | none => 0
/-- Previous attempt counter for an optional existing record: 0 when no prior
record exists, otherwise `attemptOfBase`. -/
def prevAttemptOf : Option Record → Int
  | some r => attemptOfBase r
  | none => 0
/-- `loadTemplateBase` (parse_fact.js lines 106-128).  The on-disk
`data/_template.json` is not part of src/; the in-source fallback literal
(lines 113-123) defines the same baseline shape and is what is modelled.
Line 126 re-applies `template.regionId = regionId || template.regionId || null`. -/
def loadTemplateBase (regionId : Option String) : Record :=
  let tpl : Record :=
    { regionId := if strTruthy regionId then regionId else none
      lastUpdated := none
      fact := none
      preset := none
      lastUpdateStatus := some ⟨"idle", true, none, none, none, some 0⟩
      meta := some ⟨some "1.0.0", none⟩ }
  { tpl with regionId :=
      if strTruthy regionId then regionId
      else if strTruthy tpl.regionId then tpl.regionId else none }
/-- `updateStatusOnError(existingObj, regionId, _upstream, code, message)`
(parse_fact.js lines 130-148).  `now` stands for `isoNow()`; the `_upstream`
argument is unused in the source as well. -/
def updateStatusOnError (existingObj : Option Record) (regionId _upstream : Option String)
    (code : Int) (message : String) (now : String) : Record :=
  let base := match existingObj with
    | some e => e
    | none => loadTemplateBase regionId
  let prevAttempt := attemptOfBase base
  let newStatus : UpdateStatus :=
    ⟨"error", false, some code, some message, some now, some (prevAttempt + 1)⟩
  let base := { base with lastUpdateStatus := some newStatus }
  match base.meta with
  | some m =>
      let sv := if strTruthy m.schemaVersion then m.schemaVersion else some "1.0.0"
      { base with meta := some { m with schemaVersion := sv } }
  | none => base
/-- `buildOutput(regionId, factObj, presetObj)` (parse_fact.js lines 235-255). -/
def buildOutput (regionId : String) (factObj : JsVal) (presetObj : Option JsVal)
    (now : String) : Record :=
  { regionId := some regionId
    lastUpdated := some now
    fact := some factObj
    preset := presetObj
    lastUpdateStatus := some ⟨"parsed", true, some 200, none, some now, some 1⟩
    meta := some ⟨some "1.0.0", none⟩ }
/-- The success-path record as `main` persists it (parse_fact.js lines
320-337): `buildOutput`, then the `lastUpdateStatus` overwrite merging the
previous attempt counter, then `meta.contentHash` assignment. -/
def buildSuccessRecord (regionId : String) (factObj : JsVal) (presetObj : Option JsVal)
    (existing : Option Record) (contentHash : String) (now : String) : Record :=
  let outObj := buildOutput regionId factObj presetObj now
  let mergedStatus : UpdateStatus :=
    ⟨"parsed", true, some 200, none, some now, some (prevAttemptOf existing + 1)⟩
  let outObj := { outObj with lastUpdateStatus := some mergedStatus }
  { outObj with meta := outObj.meta.map (fun m => { m with contentHash := some contentHash }) }
/-- A concrete previously stored record whose `meta.schemaVersion` is absent. -/
def recordWithoutSchemaVersion : Record :=
  { regionId := some "r1"
    lastUpdated := some "2024-01-01T00:00:00.000Z"
    fact := none
    preset := none
    lastUpdateStatus := some ⟨"parsed", true, some 200, none, some "2024-01-01T00:00:00.000Z", some 3⟩
    meta := some ⟨none, some "abc123"⟩ }
/-! ## Balanced extractor (`extractDisconObject`, parse_fact.js lines 52-81) -/
/-- The JS whitespace test `/\s/.test(c)` restricted to ASCII whitespace
(the inputs are markup text; Unicode space classes are not modelled). -/
def isWs (c : Char) : Bool :=
  c == ' ' || c == '\t' || c == '\n' || c == '\r' || c == '\x0b' || c == '\x0c'
/-- One step of the counter update in the scan loop (lines 70-74):
`'\x7b'` and `'\x7d'` adjust the curly counter, `'['` and `']'` the square
counter, all other characters leave both unchanged. -/
def applyChar (c : Char) (p : Int × Int) : Int × Int :=
  let dc := if c = '\x7b' then p.1 + 1 else if c = '\x7d' then p.1 - 1 else p.1
  let ds := if c = '[' then p.2 + 1 else if c = ']' then p.2 - 1 else p.2
  (dc, ds)
/-- Counter state reached from `p` after scanning a list of characters. -/
def runFrom (p : Int × Int) (s : List Char) : Int × Int :=
  s.foldl (fun q c => applyChar c q) p
/-- Counter state after scanning a list of characters from `(0, 0)`. -/
def countersAt (s : List Char) : Int × Int :=
  runFrom (0, 0) s
/-- The scan loop of `extractDisconObject` (lines 69-79): starting at absolute
index `i` with counter state `p`, process one character at a time and return
the absolute index of the first character after which both counters are zero;
`none` models falling off the end (the `Unbalanced braces` error). -/
def scanLoop : List Char → Int × Int → Nat → Option Nat
  | [], _, _ => none
  | c :: cs, p, i =>
    let q := applyChar c p
    if q.1 = 0 ∧ q.2 = 0 then some i else scanLoop cs q (i + 1)
/-- First index at which `marker` occurs in `html` (JS `String.indexOf`). -/
def markerIdx : List Char → List Char → Option Nat
  | [], marker => if marker = [] then some 0 else none
  | c :: cs, marker =>
    if marker.isPrefixOf (c :: cs) then some 0
    else (markerIdx cs marker).map (· + 1)
/-- Number of characters skipped by the whitespace loop at line 60. -/
def skipWsCount : List Char → Nat
  | [] => 0
  | c :: cs => if isWs c then skipWsCount cs + 1 else 0
/-- The marker string `DisconSchedule.<key> =` (line 53). -/
def markerFor (key : String) : List Char :=
  ("DisconSchedule." ++ key ++ " =").toList
/-- Successful result of `extractDisconObject`: the extracted text and its
index range (`endIndex` exclusive, as in the source's `i + 1`). -/
structure ExtractOk where
  jsonLike : List Char
  startIndex : Nat
  endIndex : Nat
deriving DecidableEq
/-- `extractDisconObject(html, key)` (parse_fact.js lines 52-81).  Error
strings stand in for the source's messages (which interpolate the key and
contain brace characters). -/
def extractDisconObject (html : List Char) (key : String) : Except String ExtractOk :=
  let marker := markerFor key
  match markerIdx html marker with
  | none => .error ("Marker DisconSchedule." ++ key ++ " = not found")
  | some idx =>
    let i0 := idx + marker.length
    let st := i0 + skipWsCount (html.drop i0)
    match html[st]? with
    | some c =>
      if c = '\x7b' ∨ c = '[' then
        match scanLoop (html.drop st) (0, 0) st with
        | some e => .ok ⟨(html.drop st).take (e - st + 1), st, e + 1⟩
        | none => .error ("Unbalanced braces while extracting " ++ key ++ " object")
      else .error ("Expected opening brace or bracket after DisconSchedule." ++ key ++ " =")
    | none => .error ("Expected opening brace or bracket after DisconSchedule." ++ key ++ " =")
/-- The closing delimiter matching an opener. -/
def closerOf (c : Char) : Char :=
  if c = '\x7b' then '\x7d' else ']'
/-- Reference notion of a correctly nested literal, independent of the
source's counter pair: scan with an explicit stack of pending openers;
neutral characters are skipped, openers are pushed, and a closer must match
the top of the stack.  `matchEnd cs stack = some n` means the stack first
becomes empty after consuming exactly `n` characters of `cs`. -/
def matchEnd : List Char → List Char → Option Nat
  | _, [] => some 0
  | [], _ :: _ => none
  | c :: cs, top :: rest =>
    if c = '\x7b' ∨ c = '[' then (matchEnd cs (c :: top :: rest)).map (· + 1)
    else if c = '\x7d' ∨ c = ']' then
      if c = closerOf top then (matchEnd cs rest).map (· + 1) else none
    else (matchEnd cs (top :: rest)).map (· + 1)
/-- Number of pending curly and square openers on a scan stack. -/
def stackCounts : List Char → Int × Int
  | [] => (0, 0)
  | c :: rest =>
    (if c = '\x7b' then (stackCounts rest).1 + 1 else (stackCounts rest).1,
     if c = '[' then (stackCounts rest).2 + 1 else (stackCounts rest).2)
/-- A concrete page fragment: `DisconSchedule.fact = \x7b[1]\x7d`. -/
def sampleHtml : List Char := "DisconSchedule.fact = \x7b[1]\x7d".toList
/-! ## Dual-mode parser (`tryParseObject`, parse_fact.js lines 83-96) -/
/-- The host-provided parsing capabilities: `jsonParse` models `JSON.parse`
(`.error` where the host throws) and `evalLiteral` models the
`Function('"use strict"; return (' + text + ');')()` fallback.  Both are host
functions, not code of this repository, so they are explicit parameters. -/
structure ParseEnv where
  jsonParse : String → Except String JsVal
  evalLiteral : String → Except String JsVal
/-- Result of `tryParseObject`: a value tagged with the mode that succeeded
(`"json"` for strict, `"eval"` for permissive), or the error object. -/
inductive ParseOutcome where
  | ok (value : JsVal) (method : String)
  | err (msg : String)
/-- Whether a `tryParseObject` result is the error case. -/
def ParseOutcome.isErr : ParseOutcome → Bool
  | .err _ => true
  | .ok _ _ => false
/-- Whether a host parse attempt failed (threw). -/
def exceptFailed : Except String JsVal → Bool
  | .error _ => true
  | .ok _ => false
/-- `tryParseObject(text)` (parse_fact.js lines 83-96): strict JSON first;
only on failure the permissive evaluator; an error carrying the underlying
cause when both fail. -/
def tryParseObject (env : ParseEnv) (text : String) : ParseOutcome :=
  match env.jsonParse text with
  | .ok v => .ok v "json"
  | .error _ =>
    match env.evalLiteral text with
    | .ok v => .ok v "eval"
    | .error e => .err ("Failed to parse object: " ++ e)
/-! ## SHA-256 (models Node `crypto` sha256 hex digest used at lines 48-50).
The hash itself is a host primitive; it is modelled here from the FIPS 180-4
standard with `Nat` arithmetic mod 2^32, so that concrete digests evaluate. -/
def w32 (n : Nat) : Nat := n % 4294967296
def rotr (n x : Nat) : Nat := w32 ((x >>> n) ||| (x <<< (32 - n)))
def bigSigma0 (x : Nat) : Nat := rotr 2 x ^^^ rotr 13 x ^^^ rotr 22 x
def bigSigma1 (x : Nat) : Nat := rotr 6 x ^^^ rotr 11 x ^^^ rotr 25 x
def smallSigma0 (x : Nat) : Nat := rotr 7 x ^^^ rotr 18 x ^^^ (x >>> 3)
def smallSigma1 (x : Nat) : Nat := rotr 17 x ^^^ rotr 19 x ^^^ (x >>> 10)
def chVal (x y z : Nat) : Nat := (x &&& y) ^^^ ((x ^^^ 4294967295) &&& z)
def majVal (x y z : Nat) : Nat := (x &&& y) ^^^ (x &&& z) ^^^ (y &&& z)
def shaK : List Nat :=
  [1116352408, 1899447441, 3049323471, 3921009573, 961987163,
   1508970993, 2453635748, 2870763221, 3624381080, 310598401,
   607225278, 1426881987, 1925078388, 2162078206, 2614888103,
   3248222580, 3835390401, 4022224774, 264347078, 604807628,
   770255983, 1249150122, 1555081692, 1996064986, 2554220882,
   2821834349, 2952996808, 3210313671, 3336571891, 3584528711,
   113926993, 338241895, 666307205, 773529912, 1294757372,
   1396182291, 1695183700, 1986661051, 2177026350, 2456956037,
   2730485921, 2820302411, 3259730800, 3345764771, 3516065817,
   3600352804, 4094571909, 275423344, 430227734, 506948616,
   659060556, 883997877, 958139571, 1322822218, 1537002063,
   1747873779, 1955562222, 2024104815, 2227730452, 2361852424,
   2428436474, 2756734187, 3204031479, 3329325298]
def shaH0 : List Nat :=
  [1779033703, 3144134277, 1013904242, 2773480762, 1359893119,
   2600822924, 528734635, 1541459225]
def padMessage (ms : List Nat) : List Nat :=
  let L := ms.length
  let k := (64 + 55 - L % 64) % 64
  ms ++ [128] ++ List.replicate k 0 ++ (List.range 8).map (fun i => ((L * 8) >>> ((7 - i) * 8)) % 256)
def bytesToWords : List Nat → List Nat
  | b0 :: b1 :: b2 :: b3 :: rest => (((b0 * 256 + b1) * 256 + b2) * 256 + b3) :: bytesToWords rest
  | _ => []
def toBlocks : List Nat → List (List Nat)
  | w0 :: w1 :: w2 :: w3 :: w4 :: w5 :: w6 :: w7 ::
    w8 :: w9 :: w10 :: w11 :: w12 :: w13 :: w14 :: w15 :: rest =>
      [w0, w1, w2, w3, w4, w5, w6, w7, w8, w9, w10, w11, w12, w13, w14, w15] :: toBlocks rest
  | _ => []
def scheduleStep (ws : List Nat) : List Nat :=
  ws ++ [w32 (smallSigma1 (ws.getD (ws.length - 2) 0) + ws.getD (ws.length - 7) 0
    + smallSigma0 (ws.getD (ws.length - 15) 0) + ws.getD (ws.length - 16) 0)]
def buildSchedule (ws : List Nat) : List Nat :=
  (List.range 48).foldl (fun acc _ => scheduleStep acc) ws
def compressStep (regs : List Nat) (kw : Nat × Nat) : List Nat :=
  match regs with
  | [a, b, c, d, e, f, g, h] =>
    let t1 := w32 (h + bigSigma1 e + chVal e f g + kw.1 + kw.2)
    let t2 := w32 (bigSigma0 a + majVal a b c)
    [w32 (t1 + t2), a, b, c, w32 (d + t1), e, f, g]
  | other => other
def compressBlock (hs : List Nat) (block : List Nat) : List Nat :=
  let ws := buildSchedule block
  let regs := (shaK.zip ws).foldl compressStep hs
  (hs.zip regs).map (fun p => w32 (p.1 + p.2))
def sha256Bytes (ms : List Nat) : List Nat :=
  let blocks := toBlocks (bytesToWords (padMessage ms))
  let hs := blocks.foldl compressBlock shaH0
  hs.flatMap (fun w => [(w >>> 24) % 256, (w >>> 16) % 256, (w >>> 8) % 256, w % 256])
def hexDigit (n : Nat) : Char := if n < 10 then Char.ofNat (48 + n) else Char.ofNat (87 + n)
def byteToHex (b : Nat) : List Char := [hexDigit (b / 16), hexDigit (b % 16)]
/-- UTF-8 encoding of a character (Node hashes strings as UTF-8 bytes). -/
def encodeChar (c : Char) : List Nat :=
  let n := c.toNat
  if n < 128 then [n]
  else if n < 2048 then [192 + n / 64, 128 + n % 64]
  else if n < 65536 then [224 + n / 4096, 128 + (n / 64) % 64, 128 + n % 64]
  else [240 + n / 262144, 128 + (n / 4096) % 64, 128 + (n / 64) % 64, 128 + n % 64]
def utf8Bytes (s : String) : List Nat := s.toList.flatMap encodeChar
/-- `sha256(data)` (parse_fact.js lines 48-50): hex digest of the UTF-8
bytes of the input string. -/
def sha256Hex (s : String) : String := String.mk ((sha256Bytes (utf8Bytes s)).flatMap byteToHex)
/-! ## The `main` data path (parse_fact.js lines 264-362) -/
/-- What a run persists (via `writeFileAtomic`) and the process exit code. -/
structure MainResult where
  persisted : Record
  exitCode : Nat
/-- The data path of `main` (parse_fact.js lines 271-341), after argument
validation: the missing-input branch (lines 273-280, exit 0), the fact
extraction-failure branch (lines 284-291, exit 0), the fact parse-failure
branch (lines 297-304, exit 0), and the success path (lines 306-341, normal
process exit 0).  `inputExists` models `fs.existsSync(args.input)`,
`existing` the `loadExisting(args.output)` reads, and `now` `isoNow()`. -/
def mainModel (env : ParseEnv) (regionId inputPath : String) (inputExists : Bool)
    (html : List Char) (existing : Option Record) (now : String) : MainResult :=
  if inputExists = false then
    ⟨updateStatusOnError existing (some regionId) none 404
        ("Input not found: " ++ inputPath) now, 0⟩
  else
    match extractDisconObject html "fact" with
    | .error e =>
        ⟨updateStatusOnError existing (some regionId) none 422 (e ++ " in " ++ inputPath) now, 0⟩
    | .ok factExt =>
      let presetExt := extractDisconObject html "preset"
      match tryParseObject env (String.mk factExt.jsonLike) with
      | .err e =>
          ⟨updateStatusOnError existing (some regionId) none 422 (e ++ " in " ++ inputPath) now, 0⟩
      | .ok factVal _ =>
        let presetParsed : Option JsVal :=
          match presetExt with
          | .error _ => none
          | .ok pExt =>
            match tryParseObject env (String.mk pExt.jsonLike) with
            | .err _ => none
            | .ok v _ => some v
        let hashInput := String.mk factExt.jsonLike ++ "|" ++
          (match presetExt with
           | .error _ => ""
           | .ok pExt => String.mk pExt.jsonLike)
        ⟨buildSuccessRecord regionId factVal presetParsed existing (sha256Hex hashInput) now, 0⟩
/-- The top-level crash handler (parse_fact.js lines 344-362): an uncaught
error in `main` is converted into an error-status write and `process.exit(0)`. -/
def crashHandlerModel (existing : Option Record) (regionId upstream : Option String)
    (errMsg : String) (now : String) : MainResult :=
  ⟨updateStatusOnError existing regionId upstream 500 ("parse_fact crashed: " ++ errMsg) now, 0⟩
/-- A finite parsing environment used for concrete runs.  It agrees with the
host on the inputs exercised: `JSON.parse('1')` is `1` and `JSON.parse` of a
brace-keyed literal or garbage throws; `Function` evaluation of
`(\x7ba:1\x7d)` yields the object and of garbage throws. -/
def envSample : ParseEnv :=
  { jsonParse := fun s => if s = "1" then .ok (.num 1) else .error "json syntax"
    evalLiteral := fun s => if s = "\x7ba:1\x7d" then .ok (.obj [("a", .num 1)])
      else .error "eval failure" }
/-- A page whose fact literal is the JSON array `[1]` and which has no
preset marker. -/
def html6 : List Char := "DisconSchedule.fact = [1]".toList
/-- Finite parsing environment agreeing with the host on the inputs used
here: `JSON.parse('[1]')` yields `[1]`; everything else throws in both
modes. -/
def env6 : ParseEnv :=
  { jsonParse := fun s => if s = "[1]" then .ok (.arr [.num 1]) else .error "json syntax"
    evalLiteral := fun _ => .error "eval failure" }
/-- A page with no `DisconSchedule.fact =` marker at all. -/
def htmlNoMarker : List Char := "nothing to see here".toList
/-- A page whose fact literal `\x7bbad!\x7d` is rejected by both parse
modes (it is neither valid JSON nor a valid JS expression). -/
def html7 : List Char := "DisconSchedule.fact = \x7bbad!\x7d".toList
/-! ## Batch render task scheduler (batch_render.mjs, concurrent variant) -/
/-- JS property access `v.name`: defined only on objects, `none` models
`undefined`. -/
def jsField (v : JsVal) (name : String) : Option JsVal :=
  match v with
  | .obj fields => fields.lookup name
  | _ => none
/-- Truthiness of a possibly-undefined value (`!x` in JS). -/
def jsTruthyOpt : Option JsVal → Bool
  | none => false
  | some v => v.truthy
/-- `typeof v === 'object'` (true for null, arrays and objects in JS). -/
def typeofObject : JsVal → Bool
  | .null => true
  | .arr _ => true
  | .obj _ => true
  | _ => false
/-- `Object.keys` for the modelled values: field names for objects, index
strings for arrays and strings, empty otherwise. -/
def objectKeys : JsVal → List String
  | .obj fields => fields.map Prod.fst
  | .arr xs => (List.range xs.length).map toString
  | .str s => (List.range s.length).map toString
  | _ => []
/-- The regex `/^GPV\d+\.\d+$/i` (batch_render.mjs line 285). -/
def gpvKeyMatch (s : String) : Bool :=
  match s.toList with
  | g :: p :: v :: rest =>
    (g == 'G' || g == 'g') && (p == 'P' || p == 'p') && (v == 'V' || v == 'v') &&
    (let d1 := rest.takeWhile Char.isDigit
     let r := rest.dropWhile Char.isDigit
     (!d1.isEmpty) &&
      (match r with
       | '.' :: r2 => (!r2.isEmpty) && r2.all Char.isDigit
       | _ => false))
  | _ => false
/-- The capture groups of `/^GPV(\d+)\.(\d+)$/i` (batch_render.mjs line 193),
`none` when the key does not match. -/
def gpvParse (s : String) : Option (String × String) :=
  match s.toList with
  | g :: p :: v :: rest =>
    if (g == 'G' || g == 'g') && (p == 'P' || p == 'p') && (v == 'V' || v == 'v') then
      let d1 := rest.takeWhile Char.isDigit
      let r := rest.dropWhile Char.isDigit
      if d1.isEmpty then none
      else
        match r with
        | '.' :: r2 =>
          if (!r2.isEmpty) && r2.all Char.isDigit then some (String.mk d1, String.mk r2)
          else none
        | _ => none
    else none
  | _ => none
/-- The sanitizing fallback `String(gpvKey).replace(/[^a-z0-9]+/gi, '-')
.toLowerCase()` (batch_render.mjs line 196): runs of non-alphanumeric
characters collapse to a single dash and letters are lowercased. -/
def sanitizeAux : List Char → Bool → List Char
  | [], _ => []
  | c :: rest, prevSep =>
    if c.isAlphanum then c.toLower :: sanitizeAux rest false
    else if prevSep then sanitizeAux rest true
    else '-' :: sanitizeAux rest true
/-- `gpvToFileName(gpvKey)` (batch_render.mjs lines 191-199). -/
def gpvToFileName (k : String) : String :=
  match gpvParse k with
  | some (ma, mi) => "gpv-" ++ ma ++ "-" ++ mi ++ ".png"
  | none => "gpv-" ++ String.mk (sanitizeAux k.toList false) ++ ".png"
/-- `base.replace(/\.png$/i, suffix)` (batch_render.mjs lines 267-269). -/
def replacePngSuffix (base suffix : String) : String :=
  if base.toLower.endsWith ".png" then base.dropRight 4 ++ suffix else base
/-- `normalizeRegionId(json, fileStem)` (batch_render.mjs lines 187-189):
a non-empty trimmed string `regionId` field wins (the trimmed value is
used), otherwise the file stem. -/
def normalizeRegionId (json : JsVal) (fileStem : String) : String :=
  match jsField json "regionId" with
  | some (.str s) => if s.trim ≠ "" then s.trim else fileStem
  | _ => fileStem
/-- `json?.preset?.data || {}` (batch_render.mjs line 284). -/
def presetDataVal (preset : JsVal) : JsVal :=
  match jsField preset "data" with
  | some v => if v.truthy then v else .obj []
  | none => .obj []
/-- The filtered GPV group keys of a record (batch_render.mjs lines
284-289).  The source also sorts these keys with a host locale-numeric
comparator; the order is not modelled, and the properties proved (task
count) are order-independent. -/
def gpvKeysOf (json : JsVal) : List String :=
  (objectKeys (presetDataVal ((jsField json "preset").getD .null))).filter
    (fun k => gpvKeyMatch k)
/-- One render task as queued by the batch loop: its log name, template
path, the injected group key and day selector, and the output path. -/
structure RenderTask where
  name : String
  template : String
  gpvKey : Option String
  dayArg : Option String
  outPath : String
deriving DecidableEq
/-- The four per-group template tasks (batch_render.mjs lines 295-354). -/
def fourTemplates (regionId gpv : String) : List RenderTask :=
  let baseName := gpvToFileName gpv
  let outDir := "images/" ++ regionId
  [⟨"FULL " ++ regionId ++ " " ++ gpv, "templates/html/full-template.html",
      some gpv, none, outDir ++ "/" ++ baseName⟩,
   ⟨"EMERGENCY " ++ regionId ++ " " ++ gpv, "templates/html/emergency-template.html",
      some gpv, none, outDir ++ "/" ++ replacePngSuffix baseName "-emergency.png"⟩,
   ⟨"WEEK " ++ regionId ++ " " ++ gpv, "templates/html/week-template.html",
      some gpv, none, outDir ++ "/" ++ replacePngSuffix baseName "-week.png"⟩,
   ⟨"SUMMARY " ++ regionId ++ " " ++ gpv, "templates/html/summary-item.html",
      some gpv, none, outDir ++ "/" ++ replacePngSuffix baseName "-summary.png"⟩]
/-- Tasks queued for an eligible record (batch_render.mjs lines 284-384):
four template tasks per GPV key, then the two all-groups views; nothing when
no GPV keys match (lines 290-293). -/
def tasksForEligible (json : JsVal) (regionId : String) : List RenderTask :=
  let keys := gpvKeysOf json
  if keys = [] then []
  else
    (keys.flatMap (fun gpv => fourTemplates regionId gpv))
    ++ [⟨"GROUPS/TODAY " ++ regionId, "templates/html/groups-template.html", none, none,
          "images/" ++ regionId ++ "/gpv-all-today.png"⟩,
        ⟨"GROUPS/TOMORROW " ++ regionId, "templates/html/groups-template.html", none,
          some "tomorrow", "images/" ++ regionId ++ "/gpv-all-tomorrow.png"⟩]
/-- Task expansion for one data file (batch_render.mjs lines 271-389).
`parsed = none` models a file whose `JSON.parse` threw (the per-file catch
at line 386 logs a warning and queues nothing); line 276 skips records that
are not truthy objects with truthy `preset` and `fact`; lines 280-282 apply
the `--region` filter. -/
def tasksForFile (onlyRegion : Option String) (fileStem : String)
    (parsed : Option JsVal) : List RenderTask :=
  match parsed with
  | none => []
  | some json =>
    if ¬ json.truthy ∨ ¬ typeofObject json
        ∨ ¬ jsTruthyOpt (jsField json "preset") ∨ ¬ jsTruthyOpt (jsField json "fact") then []
    else
      let regionId := normalizeRegionId json fileStem
      match onlyRegion with
      | some r => if r ≠ regionId ∧ r ≠ fileStem then [] else tasksForEligible json regionId
      | none => tasksForEligible json regionId
/-- All tasks queued for a directory of data files (the outer loop at
batch_render.mjs line 271). -/
def scheduledTasks (onlyRegion : Option String)
    (files : List (String × Option JsVal)) : List RenderTask :=
  files.flatMap (fun f => tasksForFile onlyRegion f.1 f.2)
/-- The `ok` counter (batch_render.mjs lines 394-406): tasks whose run
succeeded, per an abstract per-task outcome. -/
def okCount (results : RenderTask → Bool) (tasks : List RenderTask) : Nat :=
  (tasks.filter results).length
/-- The `failed` counter (batch_render.mjs lines 394-406). -/
def failedCount (results : RenderTask → Bool) (tasks : List RenderTask) : Nat :=
  (tasks.filter (fun t => ¬ results t)).length
/-- `process.exit(failed > 0 ? 1 : 0)` (batch_render.mjs line 416). -/
def batchExitCode (results : RenderTask → Bool) (tasks : List RenderTask) : Nat :=
  if 0 < failedCount results tasks then 1 else 0
/-- A record with two matching GPV groups. -/
def json8 : JsVal :=
  .obj [("regionId", .str "kyiv"),
        ("fact", .obj [("today", .arr [])]),
        ("preset", .obj [("data", .obj [("GPV1.1", .arr []), ("GPV2.1", .arr [])])])]
/-- A record with a truthy `fact` but no `preset` at all. -/
def json10 : JsVal := .obj [("fact", .obj [("today", .arr [])])]
/-! ## Time normalizer (`zonedTimeToUtc` / `toKyivIso`, parse_fact.js
lines 152-195).  Calendar arithmetic models the host `Date` UTC functions
(proleptic Gregorian, milliseconds since the epoch); the zone offset lookup
`tzOffsetMinutes` is an Intl query and is passed as a function parameter. -/
/-- Days since 1970-01-01 of a proleptic-Gregorian civil date. -/
def daysFromCivil (y m d : Int) : Int :=
  let y2 := if m ≤ 2 then y - 1 else y
  let era := y2.fdiv 400
  let yoe := y2 - era * 400
  let mp := (m + 9).emod 12
  let doy := (153 * mp + 2).fdiv 5 + d - 1
  let doe := yoe * 365 + yoe.fdiv 4 - yoe.fdiv 100 + doy
  era * 146097 + doe - 719468
/-- Civil date of a day count since 1970-01-01 (inverse of `daysFromCivil`). -/
def civilFromDays (z : Int) : Int × Int × Int :=
  let z2 := z + 719468
  let era := z2.fdiv 146097
  let doe := z2 - era * 146097
  let yoe := (doe - doe.fdiv 1460 + doe.fdiv 36524 - doe.fdiv 146096).fdiv 365
  let y := yoe + era * 400
  let doy := doe - (365 * yoe + yoe.fdiv 4 - yoe.fdiv 100)
  let mp := (5 * doy + 2).fdiv 153
  let d := doy - (153 * mp + 2).fdiv 5 + 1
  let m := if mp < 10 then mp + 3 else mp - 9
  (if m ≤ 2 then y + 1 else y, m, d)
/-- `Date.UTC(y, m-1, d, h, mi, s)` in milliseconds (month 1-based here). -/
def utcMs (y m d h mi s : Int) : Int :=
  daysFromCivil y m d * 86400000 + h * 3600000 + mi * 60000 + s * 1000
/-- `str.split(sep)` for a one-character separator, over character lists. -/
def splitOnChar (sep : Char) : List Char → List (List Char)
  | [] => [[]]
  | c :: rest =>
    let r := splitOnChar sep rest
    if c = sep then [] :: r
    else
      match r with
      | h :: t => (c :: h) :: t
      | [] => [[c]]
/-- Value of a nonempty ASCII digit string, `none` otherwise. -/
def digitsToNat? (cs : List Char) : Option Nat :=
  if cs.isEmpty then none
  else if cs.all Char.isDigit then
    some (cs.foldl (fun acc c => acc * 10 + (c.toNat - 48)) 0)
  else none
/-- `Number(str)` for the fragments produced by splitting date and time
strings: the empty string is 0, a digit string is its value, anything else
(including a missing fragment) is NaN, modelled as `none`. -/
def jsNumber (cs : List Char) : Option Int :=
  if cs.isEmpty then some 0 else (digitsToNat? cs).map Int.ofNat
/-- `x || d` for a possibly-NaN number (NaN and 0 are falsy). -/
def orDefault (x : Option Int) (d : Int) : Int :=
  match x with
  | some v => if v = 0 then d else v
  | none => d
/-- `zonedTimeToUtc(dateStr, timeStr, timeZone)` (parse_fact.js lines
168-177): naive UTC timestamp from the wall-clock components, then one
offset correction at that provisional instant.  `tz` stands for
`tzOffsetMinutes(·, timeZone)`; `none` models an invalid date (NaN year). -/
def zonedTimeToUtc (tz : Int → Int) (dateStr timeStr : String) : Option Int :=
  let dp := (splitOnChar '-' dateStr.toList).map jsNumber
  let tp := (splitOnChar ':' timeStr.toList).map jsNumber
  match dp.getD 0 none with
  | none => none
  | some y =>
    let m := orDefault (dp.getD 1 none) 1
    let d := orDefault (dp.getD 2 none) 1
    let h := orDefault (tp.getD 0 none) 0
    let mi := orDefault (tp.getD 1 none) 0
    let ts := utcMs y m d h mi 0
    some (ts - tz ts * 60000)
/-- `pad2` (parse_fact.js line 152), for the nonnegative components used. -/
def pad2 (n : Int) : String :=
  if n < 10 then "0" ++ toString n else toString n
/-- `formatOffset(totalMinutes)` (parse_fact.js lines 179-185). -/
def formatOffset (totalMinutes : Int) : String :=
  let sign := if 0 ≤ totalMinutes then "+" else "-"
  let a : Int := totalMinutes.natAbs
  sign ++ pad2 (a.fdiv 60) ++ ":" ++ pad2 (a.emod 60)
/-- `toKyivIso(dateStr, timeStr)` (parse_fact.js lines 187-195): the
corrected instant's **UTC** components (`getUTCFullYear` ... `getUTCSeconds`)
followed by the zone offset at that instant. -/
def toKyivIso (tz : Int → Int) (dateStr timeStr : String) : Option String :=
  match zonedTimeToUtc tz dateStr timeStr with
  | none => none
  | some ts =>
    let off := tz ts
    let days := ts.fdiv 86400000
    let msOfDay := ts.emod 86400000
    let (y, mo, d) := civilFromDays days
    let h := msOfDay.fdiv 3600000
    let mi := (msOfDay.emod 3600000).fdiv 60000
    let s := (msOfDay.emod 60000).fdiv 1000
    some (toString y ++ "-" ++ pad2 mo ++ "-" ++ pad2 d ++ "T"
      ++ pad2 h ++ ":" ++ pad2 mi ++ ":" ++ pad2 s ++ formatOffset off)
/-- Modelled from the spec: the host Intl time-zone data for Europe/Kyiv
queried by `tzOffsetMinutes` (parse_fact.js lines 154-166), which is a host
capability and not code of this repository — EET (UTC+2, 120 minutes) with
EU summer time (UTC+3, 180 minutes) between 01:00 UTC on the last Sundays
of March and October ("computes the UTC offset for the zone at the specific
instant, handles daylight-saving transitions correctly"). -/
def kyivOffsetMinutes (ts : Int) : Int :=
  let days := ts.fdiv 86400000
  let (y, _, _) := civilFromDays days
  let dMar := daysFromCivil y 3 31
  let startZ := dMar - (dMar + 4).emod 7
  let dOct := daysFromCivil y 10 31
  let endZ := dOct - (dOct + 4).emod 7
  if startZ * 86400000 + 3600000 ≤ ts ∧ ts < endZ * 86400000 + 3600000 then 180 else 120
/-- The claim's round-trip re-derivation, following the spec's wording: from
the output string's instant (wall-clock components minus offset) and offset,
recover the local calendar date and `HH:MM` wall-clock time. -/
def rederivedLocalWallClock (iso : String) : Option (String × String) :=
  let cs := iso.toList
  let num := fun (start len : Nat) => digitsToNat? ((cs.drop start).take len)
  match num 0 4, num 5 2, num 8 2, num 11 2, num 14 2, num 17 2 with
  | some y, some mo, some d, some h, some mi, some s =>
    match num 20 2, num 23 2 with
    | some oh, some om =>
      let sgn : Int := if cs.getD 19 ' ' = '+' then 1
        else if cs.getD 19 ' ' = '-' then -1 else 0
      if sgn = 0 then none
      else
        let offMin : Int := sgn * (oh * 60 + om)
        let instant := utcMs y mo d h mi s - offMin * 60000
        let localMs := instant + offMin * 60000
        let days := localMs.fdiv 86400000
        let msOfDay := localMs.emod 86400000
        let (y2, m2, d2) := civilFromDays days
        some (toString y2 ++ "-" ++ pad2 m2 ++ "-" ++ pad2 d2,
              pad2 (msOfDay.fdiv 3600000) ++ ":" ++ pad2 ((msOfDay.emod 3600000).fdiv 60000))
    | _, _ => none
  | _, _, _, _, _, _ => none
/-! ## Lemmas and claim theorems -/

/-- The modelled digest agrees with the FIPS 180-4 one-block test vector. -/
lemma sha256Hex_abc :
    sha256Hex "abc" = "ba7816bf8f01cfea414140de5dae2223b00361a396177a9cb410ff61f20015ad" := by
  decide

/-- The modelled digest agrees with the FIPS 180-4 two-block test vector
(a 56-byte input, so the padding's 64-bit length field is exercised beyond
its low byte). -/
lemma sha256Hex_two_blocks :
    sha256Hex "abcdbcdecdefdefgefghfghighijhijkijkljklmklmnlmnomnopnopq"
      = "248d6a61d20638b8e5c026930c3e6039a33ce45964ff2167f6ecedd419db06c1" := by
  decide
/-- C1 counterexample: the claim that `updateStatusOnError` replaces *only*
`lastUpdateStatus` fails — on an existing record whose `meta.schemaVersion`
is absent, the returned record's `meta` differs from the existing record's
`meta` (`schemaVersion` is defaulted to "1.0.0", parse_fact.js line 145). -/
theorem updateStatusOnError_changes_meta :
    (updateStatusOnError (some recordWithoutSchemaVersion) (some "r1") none
        500 "boom" "2024-01-02T00:00:00.000Z").meta
      ≠ recordWithoutSchemaVersion.meta := by
  decide
/-- C1 (amended): for any non-null existing record, `updateStatusOnError`
returns exactly the existing record with `lastUpdateStatus` replaced by
status='error', ok=false, the given code and message, at=now and
attempt=previous attempt+1, and with `meta.schemaVersion` defaulted to
"1.0.0" when it was absent or empty; `fact`, `preset`, `lastUpdated`,
`regionId` and `meta.contentHash` are exactly those of the existing record. -/
theorem updateStatusOnError_frame (e : Record) (rid up : Option String)
    (code : Int) (msg now : String) :
    updateStatusOnError (some e) rid up code msg now =
      { e with
        lastUpdateStatus :=
          some ⟨"error", false, some code, some msg, some now, some (attemptOfBase e + 1)⟩
        meta := e.meta.map (fun m =>
          { m with schemaVersion :=
              if strTruthy m.schemaVersion then m.schemaVersion else some "1.0.0" }) } := by
  cases e with
  | mk rid' lu f p st mt => cases mt <;> rfl
/-- C2: on both the error path (`updateStatusOnError`) and the success path
(the `lastUpdateStatus` merge in `main`), the new attempt counter equals the
previous record's attempt plus one, taking 0 when no prior record exists or
its attempt is not a number; hence the counter read back from the persisted
record strictly increases across consecutive updates. -/
theorem attempt_strictly_increases (existing : Option Record) (rid up : Option String)
    (code : Int) (msg now : String)
    (regionId2 : String) (factObj : JsVal) (presetObj : Option JsVal) (hash now2 : String) :
    ((updateStatusOnError existing rid up code msg now).lastUpdateStatus.map UpdateStatus.attempt
        = some (some (prevAttemptOf existing + 1)))
    ∧ ((buildSuccessRecord regionId2 factObj presetObj existing hash now2).lastUpdateStatus.map
          UpdateStatus.attempt = some (some (prevAttemptOf existing + 1)))
    ∧ prevAttemptOf (some (updateStatusOnError existing rid up code msg now))
        = prevAttemptOf existing + 1
    ∧ prevAttemptOf (some (buildSuccessRecord regionId2 factObj presetObj existing hash now2))
        = prevAttemptOf existing + 1
    ∧ prevAttemptOf existing < prevAttemptOf existing + 1 := by
  refine ⟨?_, rfl, ?_, rfl, by omega⟩ <;>
    cases existing with
    | none => rfl
    | some e =>
      cases e with
      | mk rid' lu f p st mt => cases mt <;> rfl
lemma stackCounts_nonneg (s : List Char) :
    0 ≤ (stackCounts s).1 ∧ 0 ≤ (stackCounts s).2 := by
  induction s with
  | nil => exact ⟨le_refl 0, le_refl 0⟩
  | cons c rest ih =>
    simp only [stackCounts]
    constructor <;> split <;> omega
lemma stackCounts_ne_zero (top : Char) (rest : List Char)
    (h : top = '\x7b' ∨ top = '[') :
    stackCounts (top :: rest) ≠ (0, 0) := by
  have hn := stackCounts_nonneg rest
  rcases h with rfl | rfl
  · show ((stackCounts rest).1 + 1, (stackCounts rest).2) ≠ (0, 0)
    rw [Ne, Prod.ext_iff]
    intro hc
    omega
  · show ((stackCounts rest).1, (stackCounts rest).2 + 1) ≠ (0, 0)
    rw [Ne, Prod.ext_iff]
    intro hc
    omega
lemma applyChar_push (c : Char) (s : List Char) (h : c = '\x7b' ∨ c = '[') :
    applyChar c (stackCounts s) = stackCounts (c :: s) := by
  rcases h with rfl | rfl <;> rfl
lemma applyChar_pop (top : Char) (rest : List Char) (h : top = '\x7b' ∨ top = '[') :
    applyChar (closerOf top) (stackCounts (top :: rest)) = stackCounts rest := by
  rcases h with rfl | rfl
  · show ((stackCounts rest).1 + 1 - 1, (stackCounts rest).2) = stackCounts rest
    rw [Prod.ext_iff]
    exact ⟨by omega, rfl⟩
  · show ((stackCounts rest).1, (stackCounts rest).2 + 1 - 1) = stackCounts rest
    rw [Prod.ext_iff]
    exact ⟨rfl, by omega⟩
lemma applyChar_neutral (c : Char) (p : Int × Int)
    (h1 : ¬(c = '\x7b' ∨ c = '[')) (h2 : ¬(c = '\x7d' ∨ c = ']')) :
    applyChar c p = p := by
  push_neg at h1 h2
  simp [applyChar, h1.1, h1.2, h2.1, h2.2]
/-- Core invariant: when `matchEnd` succeeds from a nonempty all-opener
stack, the counter pair first returns to `(0, 0)` exactly when the stack
first empties, and the final character consumed is the closer matching the
bottom of the stack. -/
lemma matchEnd_spec (cs : List Char) : ∀ (stack : List Char) (m : Nat),
    (∀ c ∈ stack, c = '\x7b' ∨ c = '[') → stack ≠ [] → matchEnd cs stack = some m →
    1 ≤ m ∧ m ≤ cs.length ∧
    (∀ j, j < m → runFrom (stackCounts stack) (cs.take j) ≠ (0, 0)) ∧
    runFrom (stackCounts stack) (cs.take m) = (0, 0) ∧
    cs[m - 1]? = stack.getLast?.map closerOf := by
  induction cs with
  | nil =>
    intro stack m hs hne h
    cases stack with
    | nil => exact absurd rfl hne
    | cons top rest => simp [matchEnd] at h
  | cons c cs ih =>
    intro stack m hs hne h
    cases stack with
    | nil => exact absurd rfl hne
    | cons top rest =>
      have htop : top = '\x7b' ∨ top = '[' := hs top (List.mem_cons_self ..)
      by_cases hc1 : c = '\x7b' ∨ c = '['
      · -- opener: push onto the stack
        rw [matchEnd, if_pos hc1] at h
        obtain ⟨m', hm', rfl⟩ := Option.map_eq_some'.mp h
        have hs' : ∀ x ∈ c :: top :: rest, x = '\x7b' ∨ x = '[' := by
          intro x hx
          rcases List.mem_cons.mp hx with rfl | hx'
          · exact hc1
          · exact hs x hx'
        obtain ⟨ih1, ih2, ih3, ih4, ih5⟩ :=
          ih (c :: top :: rest) m' hs' (by simp) hm'
        refine ⟨by omega, by simp; omega, ?_, ?_, ?_⟩
        · intro j hj
          cases j with
          | zero => exact stackCounts_ne_zero top rest htop
          | succ j' =>
            rw [List.take_succ_cons]
            show runFrom (applyChar c (stackCounts (top :: rest))) (cs.take j') ≠ (0, 0)
            rw [applyChar_push c _ hc1]
            exact ih3 j' (by omega)
        · rw [List.take_succ_cons]
          show runFrom (applyChar c (stackCounts (top :: rest))) (cs.take m') = (0, 0)
          rw [applyChar_push c _ hc1]
          exact ih4
        · obtain ⟨k, rfl⟩ := Nat.exists_eq_succ_of_ne_zero (by omega : m' ≠ 0)
          simpa [List.getLast?_cons_cons] using ih5
      · by_cases hc2 : c = '\x7d' ∨ c = ']'
        · -- closer: must match the top of the stack
          rw [matchEnd, if_neg hc1, if_pos hc2] at h
          by_cases hc3 : c = closerOf top
          · rw [if_pos hc3] at h
            obtain ⟨m', hm', rfl⟩ := Option.map_eq_some'.mp h
            cases rest with
            | nil =>
              have hm0 : m' = 0 := by simpa [matchEnd, eq_comm] using hm'
              subst hm0
              refine ⟨le_refl 1, by simp, ?_, ?_, ?_⟩
              · intro j hj
                have hj0 : j = 0 := by omega
                subst hj0
                exact stackCounts_ne_zero top [] htop
              · rw [List.take_succ_cons, List.take_zero]
                show applyChar c (stackCounts [top]) = (0, 0)
                rw [hc3, applyChar_pop top [] htop]
                rfl
              · simp [hc3]
            | cons r rs =>
              have hs' : ∀ x ∈ r :: rs, x = '\x7b' ∨ x = '[' := by
                intro x hx
                exact hs x (List.mem_cons_of_mem _ hx)
              obtain ⟨ih1, ih2, ih3, ih4, ih5⟩ :=
                ih (r :: rs) m' hs' (by simp) hm'
              refine ⟨by omega, by simp; omega, ?_, ?_, ?_⟩
              · intro j hj
                cases j with
                | zero => exact stackCounts_ne_zero top (r :: rs) htop
                | succ j' =>
                  rw [List.take_succ_cons]
                  show runFrom (applyChar c (stackCounts (top :: r :: rs))) (cs.take j') ≠ (0, 0)
                  rw [hc3, applyChar_pop top (r :: rs) htop]
                  exact ih3 j' (by omega)
              · rw [List.take_succ_cons]
                show runFrom (applyChar c (stackCounts (top :: r :: rs))) (cs.take m') = (0, 0)
                rw [hc3, applyChar_pop top (r :: rs) htop]
                exact ih4
              · obtain ⟨k, rfl⟩ := Nat.exists_eq_succ_of_ne_zero (by omega : m' ≠ 0)
                simpa [List.getLast?_cons_cons] using ih5
          · rw [if_neg hc3] at h
            exact absurd h (by simp)
        · -- neutral character: counters and stack unchanged
          rw [matchEnd, if_neg hc1, if_neg hc2] at h
          obtain ⟨m', hm', rfl⟩ := Option.map_eq_some'.mp h
          obtain ⟨ih1, ih2, ih3, ih4, ih5⟩ :=
            ih (top :: rest) m' hs hne hm'
          refine ⟨by omega, by simp; omega, ?_, ?_, ?_⟩
          · intro j hj
            cases j with
            | zero => exact stackCounts_ne_zero top rest htop
            | succ j' =>
              rw [List.take_succ_cons]
              show runFrom (applyChar c (stackCounts (top :: rest))) (cs.take j') ≠ (0, 0)
              rw [applyChar_neutral c _ hc1 hc2]
              exact ih3 j' (by omega)
          · rw [List.take_succ_cons]
            show runFrom (applyChar c (stackCounts (top :: rest))) (cs.take m') = (0, 0)
            rw [applyChar_neutral c _ hc1 hc2]
            exact ih4
          · obtain ⟨k, rfl⟩ := Nat.exists_eq_succ_of_ne_zero (by omega : m' ≠ 0)
            simpa using ih5
/-- The counter loop returns the index of the first character after which
both counters are zero. -/
lemma scanLoop_first_zero (cs : List Char) : ∀ (p : Int × Int) (i k : Nat),
    k < cs.length →
    (∀ j, j < k → runFrom p (cs.take (j + 1)) ≠ (0, 0)) →
    runFrom p (cs.take (k + 1)) = (0, 0) →
    scanLoop cs p i = some (i + k) := by
  induction cs with
  | nil =>
    intro p i k hk _ _
    simp at hk
  | cons c cs ih =>
    intro p i k hk hne hz
    by_cases h0 : (applyChar c p).1 = 0 ∧ (applyChar c p).2 = 0
    · have hk0 : k = 0 := by
        by_contra hk0
        refine hne 0 (by omega) ?_
        rw [List.take_succ_cons, List.take_zero]
        show applyChar c p = (0, 0)
        exact Prod.ext_iff.mpr ⟨h0.1, h0.2⟩
      subst hk0
      show (if (applyChar c p).1 = 0 ∧ (applyChar c p).2 = 0 then some i
            else scanLoop cs (applyChar c p) (i + 1)) = some (i + 0)
      rw [if_pos h0]
      exact congrArg some (by omega)
    · have hk0 : k ≠ 0 := by
        intro hk0
        subst hk0
        rw [List.take_succ_cons, List.take_zero] at hz
        have hq : applyChar c p = (0, 0) := hz
        exact h0 ⟨by rw [hq], by rw [hq]⟩
      obtain ⟨k', rfl⟩ := Nat.exists_eq_succ_of_ne_zero hk0
      have hrec := ih (applyChar c p) (i + 1) k'
        (by simp at hk; omega)
        (fun j hj => by
          have hh := hne (j + 1) (by omega)
          rwa [List.take_succ_cons] at hh)
        (by rw [List.take_succ_cons] at hz; exact hz)
      show (if (applyChar c p).1 = 0 ∧ (applyChar c p).2 = 0 then some i
            else scanLoop cs (applyChar c p) (i + 1)) = some (i + (k' + 1))
      rw [if_neg h0, hrec]
      exact congrArg some (by omega)
/-- Bridge from the stack-based nesting witness to the source's counter
scan: for a correctly nested literal, the scan stops exactly at the
matching closer, the span's first and last characters are a matching
opener/closer pair, and the counters are simultaneously zero only at the
final index of the span. -/
lemma nested_scan_facts (opener : Char) (rest : List Char) (m i : Nat)
    (hop : opener = '\x7b' ∨ opener = '[')
    (h : matchEnd rest [opener] = some m) :
    scanLoop (opener :: rest) (0, 0) i = some (i + m)
    ∧ ((opener :: rest).take (m + 1)).head? = some opener
    ∧ ((opener :: rest).take (m + 1)).getLast? = some (closerOf opener)
    ∧ (∀ j, j ≤ m →
        (countersAt (((opener :: rest).take (m + 1)).take (j + 1)) = (0, 0) ↔ j = m)) := by
  have hops : ∀ c ∈ [opener], c = '\x7b' ∨ c = '[' := by
    intro c hc
    have hco := List.mem_singleton.mp hc
    subst hco
    exact hop
  obtain ⟨h1, h2, h3, h4, h5⟩ := matchEnd_spec rest [opener] m hops (by simp) h
  have hinit : applyChar opener (0, 0) = stackCounts [opener] := applyChar_push opener [] hop
  have hshift : ∀ l : List Char, runFrom (0, 0) (opener :: l) = runFrom (stackCounts [opener]) l := by
    intro l
    show runFrom (applyChar opener (0, 0)) l = _
    rw [hinit]
  have hscan : scanLoop (opener :: rest) (0, 0) i = some (i + m) := by
    apply scanLoop_first_zero
    · simp
      omega
    · intro j hj
      rw [List.take_succ_cons, hshift]
      exact h3 j hj
    · rw [List.take_succ_cons, hshift]
      exact h4
  have hhead : ((opener :: rest).take (m + 1)).head? = some opener := by
    rw [List.take_succ_cons]
    rfl
  have hlen : ((opener :: rest).take (m + 1)).length = m + 1 := by
    rw [List.length_take]
    exact min_eq_left (by simp; omega)
  have hgl : ((opener :: rest).take (m + 1)).getLast? = some (closerOf opener) := by
    rw [List.getLast?_eq_getElem?, hlen, Nat.add_sub_cancel, List.getElem?_take, if_pos (by omega)]
    obtain ⟨k, rfl⟩ := Nat.exists_eq_succ_of_ne_zero (by omega : m ≠ 0)
    rw [List.getElem?_cons_succ]
    simpa using h5
  refine ⟨hscan, hhead, hgl, ?_⟩
  intro j hj
  have htt : (((opener :: rest).take (m + 1)).take (j + 1)) = (opener :: rest).take (j + 1) := by
    rw [List.take_take]
    congr 1
    exact min_eq_left (by omega)
  rw [htt, List.take_succ_cons]
  show runFrom (0, 0) (opener :: rest.take j) = (0, 0) ↔ j = m
  rw [hshift]
  constructor
  · intro hzz
    by_contra hne'
    exact h3 j (by omega) hzz
  · intro hje
    subst hje
    exact h4
/-- C3: for every input in which the marker is followed (after whitespace) by
an opener and the delimiters from that opener are correctly nested (witnessed
by the stack-based `matchEnd`), `extractDisconObject` returns exactly the
substring from the opener through the first index at which both nesting
counters return to zero, inclusive; that substring's first and last characters
are a matching opener/closer pair, and the two counters are simultaneously
zero only at its final index. -/
theorem extractDisconObject_balanced (html : List Char) (key : String)
    (idx st m : Nat) (opener : Char)
    (hIdx : markerIdx html (markerFor key) = some idx)
    (hSt : st = idx + (markerFor key).length
        + skipWsCount (html.drop (idx + (markerFor key).length)))
    (hOp : html[st]? = some opener)
    (hOpener : opener = '\x7b' ∨ opener = '[')
    (hNest : matchEnd (html.drop (st + 1)) [opener] = some m) :
    extractDisconObject html key = .ok ⟨(html.drop st).take (m + 1), st, st + m + 1⟩
    ∧ ((html.drop st).take (m + 1)).head? = some opener
    ∧ ((html.drop st).take (m + 1)).getLast? = some (closerOf opener)
    ∧ ∀ j, j ≤ m →
        (countersAt (((html.drop st).take (m + 1)).take (j + 1)) = (0, 0) ↔ j = m) := by
  obtain ⟨hlt, helem⟩ := List.getElem?_eq_some.mp hOp
  have hdrop : html.drop st = opener :: html.drop (st + 1) := by
    rw [List.drop_eq_getElem_cons hlt, helem]
  obtain ⟨f1, f2, f3, f4⟩ :=
    nested_scan_facts opener (html.drop (st + 1)) m st hOpener hNest
  have hmain : extractDisconObject html key
      = .ok ⟨(html.drop st).take (m + 1), st, st + m + 1⟩ := by
    simp only [extractDisconObject, hIdx]
    rw [← hSt, hOp]
    simp only [if_pos hOpener]
    rw [hdrop, f1]
    simp only [Nat.add_sub_cancel_left]
  refine ⟨hmain, ?_, ?_, ?_⟩
  · rw [hdrop]
    exact f2
  · rw [hdrop]
    exact f3
  · rw [hdrop]
    exact f4
/-- Witness for C3 at a concrete input: the marker occurs at index 0, the
opener is the curly brace at index 22, the literal is correctly nested with
the matching closer 4 characters later, and the theorem's conclusions hold. -/
theorem extractDisconObject_balanced_witness :
    extractDisconObject sampleHtml "fact" = .ok ⟨(sampleHtml.drop 22).take 5, 22, 27⟩
    ∧ ((sampleHtml.drop 22).take 5).head? = some '\x7b'
    ∧ ((sampleHtml.drop 22).take 5).getLast? = some (closerOf '\x7b')
    ∧ countersAt (((sampleHtml.drop 22).take 5).take 5) = (0, 0) := by
  have h := extractDisconObject_balanced sampleHtml "fact" 0 22 4 '\x7b'
    (by decide) (by decide) (by decide) (Or.inl rfl) (by decide)
  exact ⟨h.1, h.2.1, h.2.2.1, (h.2.2.2 4 (by decide)).mpr rfl⟩
/-- `lastUpdateStatus` of an error update, shared by several proofs. -/
lemma updateStatusOnError_status (existing : Option Record) (rid up : Option String)
    (code : Int) (msg now : String) :
    (updateStatusOnError existing rid up code msg now).lastUpdateStatus
      = some ⟨"error", false, some code, some msg, some now, some (prevAttemptOf existing + 1)⟩ := by
  cases existing with
  | none => rfl
  | some e =>
    cases e with
    | mk a b c d st mt => cases mt <;> rfl
/-- C4: for every text accepted by strict decoding, `tryParseObject` returns
exactly the strict decode tagged `"json"`; the permissive evaluator is
consulted only when strict decoding fails (the result does not depend on the
evaluator when strict decoding succeeds, and a permissive success is returned
tagged `"eval"`); and the result is an error exactly when both modes fail. -/
theorem tryParseObject_modes :
    (∀ (env : ParseEnv) (text : String) (v : JsVal),
      env.jsonParse text = .ok v → tryParseObject env text = .ok v "json")
    ∧ (∀ (j e₁ e₂ : String → Except String JsVal) (text : String) (v : JsVal),
        j text = .ok v →
        tryParseObject ⟨j, e₁⟩ text = tryParseObject ⟨j, e₂⟩ text)
    ∧ (∀ (env : ParseEnv) (text d : String) (v : JsVal),
        env.jsonParse text = .error d → env.evalLiteral text = .ok v →
        tryParseObject env text = .ok v "eval")
    ∧ (∀ (env : ParseEnv) (text : String),
        (tryParseObject env text).isErr
          = (exceptFailed (env.jsonParse text) && exceptFailed (env.evalLiteral text))) := by
  refine ⟨?_, ?_, ?_, ?_⟩
  · intro env text v h
    simp [tryParseObject, h]
  · intro j e₁ e₂ text v h
    simp [tryParseObject, h]
  · intro env text d v h1 h2
    simp [tryParseObject, h1, h2]
  · intro env text
    cases hj : env.jsonParse text with
    | ok v => simp [tryParseObject, hj, exceptFailed, ParseOutcome.isErr]
    | error d =>
      cases he : env.evalLiteral text with
      | ok v => simp [tryParseObject, hj, he, exceptFailed, ParseOutcome.isErr]
      | error d' => simp [tryParseObject, hj, he, exceptFailed, ParseOutcome.isErr]
/-- Witness for C4 at concrete inputs: strict decode of `1` is returned
tagged json independently of the evaluator; `\x7ba:1\x7d` falls back to the
evaluator and is tagged eval; for garbage both modes fail and the result is
the error case. -/
theorem tryParseObject_modes_witness :
    tryParseObject envSample "1" = .ok (.num 1) "json"
    ∧ tryParseObject ⟨envSample.jsonParse, envSample.evalLiteral⟩ "1"
        = tryParseObject ⟨envSample.jsonParse, fun _ => .error "other"⟩ "1"
    ∧ tryParseObject envSample "\x7ba:1\x7d" = .ok (.obj [("a", .num 1)]) "eval"
    ∧ (tryParseObject envSample "zz").isErr
        = (exceptFailed (envSample.jsonParse "zz") && exceptFailed (envSample.evalLiteral "zz")) := by
  refine ⟨?_, ?_, ?_, ?_⟩
  · exact tryParseObject_modes.1 envSample "1" (.num 1) (by rfl)
  · exact tryParseObject_modes.2.1 envSample.jsonParse envSample.evalLiteral
      (fun _ => .error "other") "1" (.num 1) (by rfl)
  · exact tryParseObject_modes.2.2.1 envSample "\x7ba:1\x7d" "json syntax"
      (.obj [("a", .num 1)]) (by rfl) (by rfl)
  · exact tryParseObject_modes.2.2.2 envSample "zz"
/-- C6 counterexample: on a successful parse with no preset marker, the
persisted `meta.contentHash` is the digest of the extracted fact text
followed by a `'|'` separator (parse_fact.js line 335), which differs from
the digest of the fact text concatenated with the empty string as the claim
states. -/
theorem contentHash_has_separator :
    ((mainModel env6 "r1" "in.html" true html6 none "T").persisted.meta.map Meta.contentHash)
      = some (some (sha256Hex "[1]|"))
    ∧ sha256Hex "[1]|" ≠ sha256Hex ("[1]" ++ "")
    ∧ ((mainModel env6 "r1" "in.html" true html6 none "T").persisted.meta.map Meta.contentHash)
      ≠ some (some (sha256Hex ("[1]" ++ ""))) := by
  refine ⟨by decide, by decide, by decide⟩
/-- C6 (amended): on every successful parse, the persisted
`meta.contentHash` is the SHA-256 hex digest of the exact extracted literal
text of fact, a `'|'` separator, and the exact extracted literal text of
preset — or the empty string after the separator when preset extraction
failed or its marker is absent.  The digest is computed from the raw
extracted text, not from the parsed values. -/
theorem contentHash_from_extracted_text
    (env : ParseEnv) (regionId inputPath : String) (html : List Char)
    (existing : Option Record) (now : String) (factExt : ExtractOk)
    (factVal : JsVal) (meth : String)
    (hfact : extractDisconObject html "fact" = .ok factExt)
    (hparse : tryParseObject env (String.mk factExt.jsonLike) = .ok factVal meth) :
    (mainModel env regionId inputPath true html existing now).persisted.meta.map Meta.contentHash
      = some (some (sha256Hex (String.mk factExt.jsonLike ++ "|" ++
          (match extractDisconObject html "preset" with
           | .error _ => ""
           | .ok pExt => String.mk pExt.jsonLike)))) := by
  cases hpre : extractDisconObject html "preset" with
  | error e => simp [mainModel, hfact, hparse, hpre, buildSuccessRecord, buildOutput]
  | ok pExt => simp [mainModel, hfact, hparse, hpre, buildSuccessRecord, buildOutput]
/-- Witness for C6 (amended) at a concrete page: fact text `[1]`, no preset
marker, hash input `[1]|`. -/
theorem contentHash_from_extracted_text_witness :
    extractDisconObject html6 "fact" = .ok ⟨"[1]".toList, 22, 25⟩
    ∧ tryParseObject env6 (String.mk ("[1]".toList)) = .ok (.arr [.num 1]) "json"
    ∧ (mainModel env6 "r1" "in.html" true html6 none "T").persisted.meta.map Meta.contentHash
        = some (some (sha256Hex ("[1]" ++ "|" ++ ""))) := by
  have h := contentHash_from_extracted_text env6 "r1" "in.html" html6 none "T"
    ⟨"[1]".toList, 22, 25⟩ (.arr [.num 1]) "json" (by rfl) (by rfl)
  exact ⟨by rfl, by rfl, h⟩
/-- C7: every failing extraction run — input file missing, fact marker
missing or literal malformed, fact failing both parse modes, or an uncaught
crash in the data path — still persists a record whose `lastUpdateStatus`
has status `error` and `ok = false`, and the process exits with code 0. -/
theorem main_failure_paths_error_exit_zero :
    (∀ (env : ParseEnv) (regionId inputPath : String) (html : List Char)
        (existing : Option Record) (now : String),
      (mainModel env regionId inputPath false html existing now).exitCode = 0
      ∧ (mainModel env regionId inputPath false html existing now).persisted.lastUpdateStatus.map
          (fun st => (st.status, st.ok)) = some ("error", false))
    ∧ (∀ (env : ParseEnv) (regionId inputPath : String) (html : List Char)
        (existing : Option Record) (now e : String),
        extractDisconObject html "fact" = .error e →
        (mainModel env regionId inputPath true html existing now).exitCode = 0
        ∧ (mainModel env regionId inputPath true html existing now).persisted.lastUpdateStatus.map
            (fun st => (st.status, st.ok)) = some ("error", false))
    ∧ (∀ (env : ParseEnv) (regionId inputPath : String) (html : List Char)
        (existing : Option Record) (now : String) (factExt : ExtractOk) (e : String),
        extractDisconObject html "fact" = .ok factExt →
        tryParseObject env (String.mk factExt.jsonLike) = .err e →
        (mainModel env regionId inputPath true html existing now).exitCode = 0
        ∧ (mainModel env regionId inputPath true html existing now).persisted.lastUpdateStatus.map
            (fun st => (st.status, st.ok)) = some ("error", false))
    ∧ (∀ (existing : Option Record) (rid ups : Option String) (msg now : String),
        (crashHandlerModel existing rid ups msg now).exitCode = 0
        ∧ (crashHandlerModel existing rid ups msg now).persisted.lastUpdateStatus.map
            (fun st => (st.status, st.ok)) = some ("error", false)) := by
  refine ⟨?_, ?_, ?_, ?_⟩
  · intro env regionId inputPath html existing now
    exact ⟨rfl, by simp [mainModel, updateStatusOnError_status]⟩
  · intro env regionId inputPath html existing now e h
    constructor <;> simp [mainModel, h, updateStatusOnError_status]
  · intro env regionId inputPath html existing now factExt e hfact hparse
    constructor <;> simp [mainModel, hfact, hparse, updateStatusOnError_status]
  · intro existing rid ups msg now
    exact ⟨rfl, by simp [crashHandlerModel, updateStatusOnError_status]⟩
/-- Witness for C7 at concrete inputs: a missing input file, a page without
the marker, a page whose literal fails both parse modes, and a crash, each
persisting an error status with exit code 0. -/
theorem main_failure_paths_error_exit_zero_witness :
    ((mainModel envSample "r1" "in.html" false [] none "T").exitCode = 0
      ∧ (mainModel envSample "r1" "in.html" false [] none "T").persisted.lastUpdateStatus.map
          (fun st => (st.status, st.ok)) = some ("error", false))
    ∧ ((mainModel envSample "r1" "in.html" true htmlNoMarker none "T").exitCode = 0
      ∧ (mainModel envSample "r1" "in.html" true htmlNoMarker none "T").persisted.lastUpdateStatus.map
          (fun st => (st.status, st.ok)) = some ("error", false))
    ∧ ((mainModel envSample "r1" "in.html" true html7 none "T").exitCode = 0
      ∧ (mainModel envSample "r1" "in.html" true html7 none "T").persisted.lastUpdateStatus.map
          (fun st => (st.status, st.ok)) = some ("error", false))
    ∧ ((crashHandlerModel none (some "r1") none "boom" "T").exitCode = 0
      ∧ (crashHandlerModel none (some "r1") none "boom" "T").persisted.lastUpdateStatus.map
          (fun st => (st.status, st.ok)) = some ("error", false)) := by
  refine ⟨main_failure_paths_error_exit_zero.1 envSample "r1" "in.html" [] none "T",
    main_failure_paths_error_exit_zero.2.1 envSample "r1" "in.html" htmlNoMarker none "T"
      "Marker DisconSchedule.fact = not found" (by rfl),
    main_failure_paths_error_exit_zero.2.2.1 envSample "r1" "in.html" html7 none "T"
      ⟨"\x7bbad!\x7d".toList, 22, 28⟩ "Failed to parse object: eval failure" (by rfl) (by rfl),
    main_failure_paths_error_exit_zero.2.2.2 none (some "r1") none "boom" "T"⟩
lemma length_flatMap_fourTemplates (keys : List String) (regionId : String) :
    (keys.flatMap (fun gpv => fourTemplates regionId gpv)).length = 4 * keys.length := by
  induction keys with
  | nil => rfl
  | cons k ks ih =>
    rw [List.flatMap_cons, List.length_append, ih]
    show 4 + 4 * ks.length = 4 * (ks.length + 1)
    omega
/-- C8: for every eligible data record (a truthy object with truthy `fact`
and `preset` and at least one `preset.data` key matching `GPV<major>.<minor>`)
that passes the region filter, the batch scheduler queues exactly
`4 × |groups| + 2` render tasks: four template variants per matching group
plus the two all-groups views. -/
theorem batch_task_fanout (onlyRegion : Option String) (fileStem : String) (json : JsVal)
    (h1 : json.truthy = true) (h2 : typeofObject json = true)
    (h3 : jsTruthyOpt (jsField json "preset") = true)
    (h4 : jsTruthyOpt (jsField json "fact") = true)
    (h5 : gpvKeysOf json ≠ [])
    (h6 : onlyRegion = none ∨ onlyRegion = some (normalizeRegionId json fileStem)
        ∨ onlyRegion = some fileStem) :
    (tasksForFile onlyRegion fileStem (some json)).length
      = 4 * (gpvKeysOf json).length + 2 := by
  have hcond : ¬(¬ json.truthy ∨ ¬ typeofObject json
      ∨ ¬ jsTruthyOpt (jsField json "preset") ∨ ¬ jsTruthyOpt (jsField json "fact")) := by
    simp [h1, h2, h3, h4]
  have helig : (tasksForEligible json (normalizeRegionId json fileStem)).length
      = 4 * (gpvKeysOf json).length + 2 := by
    rw [tasksForEligible]
    simp only [if_neg h5]
    rw [List.length_append, length_flatMap_fourTemplates]
    rfl
  rcases h6 with rfl | rfl | rfl
  · rw [tasksForFile, if_neg hcond]
    exact helig
  · rw [tasksForFile, if_neg hcond]
    simp only [ne_eq, not_true_eq_false, false_and, if_false]
    exact helig
  · rw [tasksForFile, if_neg hcond]
    simp only [ne_eq, not_true_eq_false, and_false, if_false]
    exact helig
/-- Witness for C8 at a concrete record: two matching groups give exactly
ten tasks. -/
theorem batch_task_fanout_witness :
    (tasksForFile none "kyiv" (some json8)).length = 4 * (gpvKeysOf json8).length + 2
    ∧ (tasksForFile none "kyiv" (some json8)).length = 10 := by
  refine ⟨batch_task_fanout none "kyiv" json8 (by rfl) (by rfl) (by rfl) (by rfl)
    (by decide) (Or.inl rfl), by decide⟩
/-- C10: a data file whose parsed JSON is not a truthy object or lacks a
truthy `preset` or `fact` contributes no render tasks; consequently it
contributes nothing to the success/failure counters and leaves the batch
exit code unchanged, regardless of the other files and of per-task
outcomes. -/
theorem batch_skips_ineligible (onlyRegion : Option String) (fileStem : String) (json : JsVal)
    (h : json.truthy = false ∨ typeofObject json = false
        ∨ jsTruthyOpt (jsField json "preset") = false
        ∨ jsTruthyOpt (jsField json "fact") = false) :
    tasksForFile onlyRegion fileStem (some json) = []
    ∧ ∀ (files : List (String × Option JsVal)) (results : RenderTask → Bool),
        scheduledTasks onlyRegion (files ++ [(fileStem, some json)])
          = scheduledTasks onlyRegion files
        ∧ okCount results (scheduledTasks onlyRegion (files ++ [(fileStem, some json)]))
          = okCount results (scheduledTasks onlyRegion files)
        ∧ failedCount results (scheduledTasks onlyRegion (files ++ [(fileStem, some json)]))
          = failedCount results (scheduledTasks onlyRegion files)
        ∧ batchExitCode results (scheduledTasks onlyRegion (files ++ [(fileStem, some json)]))
          = batchExitCode results (scheduledTasks onlyRegion files) := by
  have hcond : (¬ json.truthy ∨ ¬ typeofObject json
      ∨ ¬ jsTruthyOpt (jsField json "preset") ∨ ¬ jsTruthyOpt (jsField json "fact")) := by
    rcases h with h | h | h | h
    · exact Or.inl (by simp [h])
    · exact Or.inr (Or.inl (by simp [h]))
    · exact Or.inr (Or.inr (Or.inl (by simp [h])))
    · exact Or.inr (Or.inr (Or.inr (by simp [h])))
  have hempty : tasksForFile onlyRegion fileStem (some json) = [] := by
    rw [tasksForFile, if_pos hcond]
  refine ⟨hempty, ?_⟩
  intro files results
  have hsched : scheduledTasks onlyRegion (files ++ [(fileStem, some json)])
      = scheduledTasks onlyRegion files := by
    rw [scheduledTasks, List.flatMap_append]
    show _ ++ (tasksForFile onlyRegion fileStem (some json) ++ []) = _
    rw [hempty]
    simp [scheduledTasks]
  exact ⟨hsched, by rw [hsched], by rw [hsched], by rw [hsched]⟩
/-- Witness for C10 at a concrete record lacking `preset`: zero tasks and
unchanged counters and exit code next to an eligible sibling file. -/
theorem batch_skips_ineligible_witness :
    tasksForFile none "odesa" (some json10) = []
    ∧ scheduledTasks none ([("kyiv", some json8)] ++ [("odesa", some json10)])
        = scheduledTasks none [("kyiv", some json8)]
    ∧ batchExitCode (fun _ => true)
        (scheduledTasks none ([("kyiv", some json8)] ++ [("odesa", some json10)]))
      = batchExitCode (fun _ => true) (scheduledTasks none [("kyiv", some json8)]) := by
  have h := batch_skips_ineligible none "odesa" json10
    (Or.inr (Or.inr (Or.inl (by rfl))))
  exact ⟨h.1, (h.2 [("kyiv", some json8)] (fun _ => true)).1,
    (h.2 [("kyiv", some json8)] (fun _ => true)).2.2.2⟩
/-- C5 (code bug): for the Kyiv wall-clock input 2024-01-05 08:00 — far from
any DST boundary — `toKyivIso` emits the UTC wall clock 06:00 with the +02:00
offset suffix, so re-deriving the local wall clock from the output's instant
and offset yields 06:00, not the input 08:00: the claimed round-trip fails.
(The intent, per the spec and the `startLocal` field name, is the local
wall clock `2024-01-05T08:00:00+02:00`.) -/
theorem toKyivIso_roundtrip_fails :
    toKyivIso kyivOffsetMinutes "2024-01-05" "08:00" = some "2024-01-05T06:00:00+02:00"
    ∧ (toKyivIso kyivOffsetMinutes "2024-01-05" "08:00").bind rederivedLocalWallClock
        = some ("2024-01-05", "06:00")
    ∧ ("2024-01-05", "06:00") ≠ ("2024-01-05", "08:00") := by
  refine ⟨by decide, by decide, by decide⟩
end Outage
